import Mathlib

/-!
Verification development for the HP 16700 I2C serial decoder (`i2c-tdk.c`).

The decoder consumes a stream of `(scl, sda, time)` samples and emits protocol
events (`START`, `STOP`, `ADDRESS`, ...) on an event channel, decoded bytes on a
data channel, and diagnostics for unhandled combinations.  `handleState` below is
a direct shallow embedding of the C function of the same name: line levels are
`Nat`s compared against the literals `0`/`1` exactly as the C compares
`unsigned int` values, the 8-bit fields `pos` and `byteBuffer` are `Nat`s reduced
`% 256` wherever the C `uint8_t` stores truncate, and each call returns the
updated decoder together with the emissions of that single call.
-/

/-- States of the decoder, mirroring `enum conditions` in the source
(`IDLE`, `READ_ADDR`, `READ_RW`, `READ_DATA`, `READ_ACK`, `INVALID`;
`INVALID` is declared but never assigned). -/
inductive Conditions where
  | IDLE
  | READ_ADDR
  | READ_RW
  | READ_DATA
  | READ_ACK
  | INVALID
deriving DecidableEq, Repr

/-- The nine event labels the decoder writes to the event channel
(`"START"`, `"START(odd)"`, `"STOP"`, `"ADDRESS"`, `"WRITE"`, `"READ"`,
`"ACK"`, `"NACK"`, `"DATA"` in the source). -/
inductive I2CEvent where
  | START
  | STARTodd
  | STOP
  | ADDRESS
  | WRITE
  | READ
  | ACK
  | NACK
  | DATA
deriving DecidableEq, Repr

/-- One diagnostic emission.  The five fields are, in order, the five arguments
the source passes to `io.printf("  state=%d, lastSCL=%d, lastSDA=%d, scl=%d, sda=%d", ...)`,
namely `d->state, d->scl, d->sda, d->scl, d->sda` (the last two arguments in the
C are `d->scl` and `d->sda` again, not the new `scl`/`sda` parameters).  The
preceding fixed-text `io.print` call carries no data and is folded into this one
record. -/
structure Diag where
  stateArg : Conditions
  lastSclArg : Nat
  lastSdaArg : Nat
  sclArg : Nat
  sdaArg : Nat
deriving DecidableEq, Repr

/-- The emissions of one or more `handleState` calls: event-channel records
(`eventDs`/`i2cEventsLE`), data-channel records (`dataDs`/`i2cLE`), and
diagnostics (`io.print`/`io.printf`).  Each record carries the `time` passed to
`replaceNext`. -/
structure HSOut where
  events : List (Int × I2CEvent)
  dataBytes : List (Int × Nat)
  diags : List Diag
deriving DecidableEq, Repr

/-- No emissions. -/
def HSOut.empty : HSOut := ⟨[], [], []⟩

/-- Concatenation of emissions, channel by channel, in order. -/
def HSOut.app (a b : HSOut) : HSOut :=
  ⟨a.events ++ b.events, a.dataBytes ++ b.dataBytes, a.diags ++ b.diags⟩

/-- The decoder record (`struct decoder`): current state, last observed line
levels `scl`/`sda`, bit position `pos` and byte accumulator `byteBuffer`
(both `uint8_t` in the source, hence always `< 256` here). -/
structure Decoder where
  state : Conditions
  scl : Nat
  sda : Nat
  pos : Nat
  byteBuffer : Nat
deriving DecidableEq, Repr

/-- `newDecoder` from the source: `malloc` the record, then set only
`state = IDLE`, `scl = 1`, `sda = 1` ("Assume we're starting with an idle
bus").  The C never initializes `pos` and `byteBuffer`, so their indeterminate
initial contents are modelled as parameters `pos0`/`buf0`, reduced `% 256` as
arbitrary `uint8_t` contents. -/
def newDecoder (pos0 buf0 : Nat) : Decoder :=
  { state := Conditions.IDLE, scl := 1, sda := 1
    pos := pos0 % 256, byteBuffer := buf0 % 256 }

/-- Direct embedding of `handleState`.  The branch chain is translated in the
source order: no-change, clock-falling, clock-low, start condition, stop
condition, `READ_ADDR`, `READ_RW`, `READ_ACK`, `READ_DATA`, and the diagnostic
`else`.  Every branch except the no-change early `return` ends by storing the
new levels into `scl`/`sda` (lines 303-304 of the source).  `uint8_t` stores
into `byteBuffer` and the `uint8_t` increment of `pos` truncate `% 256`; the C
expression `6 - d->pos` (resp. `7 - d->pos`) is `Nat` subtraction, which agrees
with the C `int` arithmetic whenever `pos` is small enough for the shift to be
defined. -/
def handleState (d : Decoder) (scl sda : Nat) (time : Int) : Decoder × HSOut :=
  if d.scl = scl ∧ d.sda = sda then
    (d, HSOut.empty)
  else if d.scl = 1 ∧ scl = 0 then
    ({ d with scl := scl, sda := sda }, HSOut.empty)
  else if scl = 0 then
    ({ d with scl := scl, sda := sda }, HSOut.empty)
  else if d.scl = 1 ∧ d.sda = 1 ∧ scl = 1 ∧ sda = 0 then
    ({ state := Conditions.READ_ADDR, scl := scl, sda := sda, pos := 0, byteBuffer := 0 },
     ⟨[(time, if d.state = Conditions.IDLE then I2CEvent.START else I2CEvent.STARTodd)], [], []⟩)
  else if d.scl = 1 ∧ d.sda = 0 ∧ scl = 1 ∧ sda = 1 then
    ({ d with state := Conditions.IDLE, scl := scl, sda := sda },
     ⟨[(time, I2CEvent.STOP)], [], []⟩)
  else if d.state = Conditions.READ_ADDR ∧ scl = 1 then
    if (d.pos + 1) % 256 = 7 then
      ({ state := Conditions.READ_RW, scl := scl, sda := sda, pos := 0, byteBuffer := 0 },
       ⟨[(time, I2CEvent.ADDRESS)],
        [(time, (d.byteBuffer ||| (sda <<< (6 - d.pos))) % 256)], []⟩)
    else
      ({ d with
          scl := scl
          sda := sda
          pos := (d.pos + 1) % 256
          byteBuffer := (d.byteBuffer ||| (sda <<< (6 - d.pos))) % 256 }, HSOut.empty)
  else if d.state = Conditions.READ_RW ∧ scl = 1 then
    ({ d with state := Conditions.READ_ACK, scl := scl, sda := sda },
     ⟨[(time, if sda = 0 then I2CEvent.WRITE else I2CEvent.READ)], [], []⟩)
  else if d.state = Conditions.READ_ACK ∧ scl = 1 then
    ({ d with state := Conditions.READ_DATA, scl := scl, sda := sda, pos := 0, byteBuffer := 0 },
     ⟨[(time, if sda = 0 then I2CEvent.ACK else I2CEvent.NACK)], [], []⟩)
  else if d.state = Conditions.READ_DATA ∧ scl = 1 then
    if (d.pos + 1) % 256 = 8 then
      ({ d with state := Conditions.READ_ACK, scl := scl, sda := sda, pos := 0, byteBuffer := 0 },
       ⟨[(time, I2CEvent.DATA)],
        [(time, (d.byteBuffer ||| (sda <<< (7 - d.pos))) % 256)], []⟩)
    else
      ({ d with
          scl := scl
          sda := sda
          pos := (d.pos + 1) % 256
          byteBuffer := (d.byteBuffer ||| (sda <<< (7 - d.pos))) % 256 }, HSOut.empty)
  else
    ({ d with scl := scl, sda := sda },
     ⟨[], [], [⟨d.state, d.scl, d.sda, d.scl, d.sda⟩]⟩)

/-- The main loop of `execute`: fold `handleState` over the sample stream
in order, concatenating the emissions of each call. -/
def run : Decoder → List (Nat × Nat × Int) → Decoder × HSOut
  | d, [] => (d, HSOut.empty)
  | d, (scl, sda, t) :: ss =>
    let r1 := handleState d scl sda t
    let r2 := run r1.1 ss
    (r2.1, HSOut.app r1.2 r2.2)

/-- Sample sequence for the round-trip write transaction of spec section 8:
START from the idle bus, the seven address bits `1,0,1,0,0,0,0` (each delivered
by pulling the clock low and then raising it with the bit on the data line),
direction bit `0`, ack bit `0`, eight data bits all `1`, nack bit `1`, and a
STOP transition (clock low, data low, clock high, then data rising while the
clock is high). -/
def c1Samples : List (Nat × Nat × Int) :=
  [(1, 0, 0),
   (0, 1, 1), (1, 1, 2),
   (0, 0, 3), (1, 0, 4),
   (0, 1, 5), (1, 1, 6),
   (0, 0, 7), (1, 0, 8),
   (0, 0, 9), (1, 0, 10),
   (0, 0, 11), (1, 0, 12),
   (0, 0, 13), (1, 0, 14),
   (0, 0, 15), (1, 0, 16),
   (0, 0, 17), (1, 0, 18),
   (0, 1, 19), (1, 1, 20),
   (0, 1, 21), (1, 1, 22),
   (0, 1, 23), (1, 1, 24),
   (0, 1, 25), (1, 1, 26),
   (0, 1, 27), (1, 1, 28),
   (0, 1, 29), (1, 1, 30),
   (0, 1, 31), (1, 1, 32),
   (0, 1, 33), (1, 1, 34),
   (0, 1, 35), (1, 1, 36),
   (0, 1, 37), (0, 0, 38), (1, 0, 39), (1, 1, 40)]

/-- Numeric level of one bit on the data line. -/
def bitLevel (b : Bool) : Nat := if b then 1 else 0

/-- Samples delivering a list of bits as successive bit-sample edges: each bit
is presented by pulling the clock low with the bit on the data line and then
raising the clock, so that exactly the clock-rising samples are classified as
bit-sample edges. -/
def bitSamples : List Bool → List (Nat × Nat × Int)
  | [] => []
  | b :: bs => (0, bitLevel b, 0) :: (1, bitLevel b, 0) :: bitSamples bs

/-- Feed a list of bits to the decoder as successive bit-sample edges. -/
def feedBits (d : Decoder) (bs : List Bool) : Decoder × HSOut :=
  run d (bitSamples bs)

/-- A sample is classified as a start condition exactly when the previously
observed levels are `1,1` and the new levels are `1,0` (the guard of the
start-condition branch; the earlier branches cannot fire under it). -/
def isStartSample (d : Decoder) (scl sda : Nat) : Prop :=
  d.scl = 1 ∧ d.sda = 1 ∧ scl = 1 ∧ sda = 0

instance (d : Decoder) (scl sda : Nat) : Decidable (isStartSample d scl sda) := by
  unfold isStartSample
  infer_instance

/-- The reachability invariant of the decoder: in `READ_ADDR` the bit position
is at most `6`, in `READ_DATA` at most `7`, in `READ_RW` and `READ_ACK` both
the position and the accumulator are `0`, and the never-assigned `INVALID`
state does not occur.  Nothing is guaranteed in `IDLE`, where the indeterminate
allocator contents of `pos`/`byteBuffer` may still be present. -/
def DecInv (d : Decoder) : Prop :=
  (d.state = Conditions.READ_ADDR → d.pos ≤ 6)
  ∧ (d.state = Conditions.READ_DATA → d.pos ≤ 7)
  ∧ (d.state = Conditions.READ_RW → d.pos = 0 ∧ d.byteBuffer = 0)
  ∧ (d.state = Conditions.READ_ACK → d.pos = 0 ∧ d.byteBuffer = 0)
  ∧ d.state ≠ Conditions.INVALID

instance (d : Decoder) : Decidable (DecInv d) := by
  unfold DecInv
  infer_instance

/-- Sequences of samples none of which is classified as a start condition at
the moment it is processed. -/
def noStartRun : Decoder → List (Nat × Nat × Int) → Prop
  | _, [] => True
  | d, (scl, sda, t) :: ss =>
    ¬ isStartSample d scl sda ∧ noStartRun (handleState d scl sda t).1 ss

instance noStartRunDecidable (d : Decoder) (ss : List (Nat × Nat × Int)) :
    Decidable (noStartRun d ss) := by
  induction ss generalizing d with
  | nil => exact isTrue trivial
  | cons s ss ih =>
    obtain ⟨scl, sda, t⟩ := s
    unfold noStartRun
    exact @instDecidableAnd _ _ inferInstance (ih _)

/-- Witness samples for C9: a clock fall, a data change while low, a spurious
bit edge in `IDLE` (diagnostic only), and a spurious STOP. -/
def c9Samples : List (Nat × Nat × Int) :=
  [(0, 1, 0), (0, 0, 1), (1, 0, 2), (1, 1, 3)]

/-- Unfolding equation for `run` on a cons cell. -/
theorem run_cons (d : Decoder) (scl sda : Nat) (t : Int) (ss : List (Nat × Nat × Int)) :
    run d ((scl, sda, t) :: ss) =
      ((run (handleState d scl sda t).1 ss).1,
       HSOut.app (handleState d scl sda t).2 (run (handleState d scl sda t).1 ss).2) := rfl

/-- Processing a start-condition sample from the freshly created decoder
resets the whole record, whatever the indeterminate initial `pos`/`byteBuffer`
contents were. -/
theorem handleState_new_start (p b : Nat) (t : Int) :
    handleState (newDecoder p b) 1 0 t =
      (⟨Conditions.READ_ADDR, 1, 0, 0, 0⟩, ⟨[(t, I2CEvent.START)], [], []⟩) := by
  simp [newDecoder, handleState]

/-- C1: the section-8 round-trip write transaction — START from an idle bus,
address bits `1,0,1,0,0,0,0`, direction bit `0`, ack `0`, eight data bits `1`,
nack `1`, then STOP — emits exactly
`START, ADDRESS, WRITE, ACK, DATA, NACK, STOP` in that order, with byte
`0x50 = 80` on the data channel at the ADDRESS timestamp and `0xFF = 255` at
the DATA timestamp, and leaves the decoder in `IDLE`, for every indeterminate
initial content of the uninitialized fields. -/
theorem c1_round_trip (p b : Nat) :
    (run (newDecoder p b) c1Samples).2.events =
      [(0, I2CEvent.START), (14, I2CEvent.ADDRESS), (16, I2CEvent.WRITE),
       (18, I2CEvent.ACK), (34, I2CEvent.DATA), (36, I2CEvent.NACK),
       (40, I2CEvent.STOP)]
    ∧ (run (newDecoder p b) c1Samples).2.dataBytes = [(14, 80), (34, 255)]
    ∧ (run (newDecoder p b) c1Samples).2.diags = []
    ∧ (run (newDecoder p b) c1Samples).1.state = Conditions.IDLE := by
  have h : run (newDecoder p b) c1Samples =
      ((run ⟨Conditions.READ_ADDR, 1, 0, 0, 0⟩ c1Samples.tail).1,
       HSOut.app ⟨[(0, I2CEvent.START)], [], []⟩
         (run ⟨Conditions.READ_ADDR, 1, 0, 0, 0⟩ c1Samples.tail).2) := by
    rw [show c1Samples = (1, 0, 0) :: c1Samples.tail from rfl, run_cons,
        handleState_new_start]
    rfl
  rw [h]
  decide

/-- C6: a sample whose clock and data levels both equal the previously observed
levels hits the early `return` of `handleState`: the decoder record (state,
`pos`, `byteBuffer`, `scl`, `sda`) is returned unchanged and nothing is emitted
on any channel, so repeating the same sample is a no-op after the first
occurrence, in every decoder state. -/
theorem c6_no_change (d : Decoder) (scl sda : Nat) (t : Int)
    (hc : d.scl = scl) (hd : d.sda = sda) :
    handleState d scl sda t = (d, HSOut.empty) := by
  unfold handleState
  rw [if_pos ⟨hc, hd⟩]

/-- Witness for C6 at a concrete reachable state. -/
theorem c6_no_change_witness :
    handleState ⟨Conditions.READ_DATA, 1, 1, 3, 128⟩ 1 1 7 =
      (⟨Conditions.READ_DATA, 1, 1, 3, 128⟩, HSOut.empty) :=
  c6_no_change ⟨Conditions.READ_DATA, 1, 1, 3, 128⟩ 1 1 7 rfl rfl

/-- C7: a data change sampled while the clock is low (new clock level `0`, not
the no-change case and not a clock-falling transition) is ignored: no event, no
byte, no diagnostic, and `state`/`pos`/`byteBuffer` are unchanged; only the
stored last-seen levels are updated to the new values. -/
theorem c7_clock_low_mask (d : Decoder) (scl sda : Nat) (t : Int)
    (hn : ¬(d.scl = scl ∧ d.sda = sda)) (hf : ¬(d.scl = 1 ∧ scl = 0))
    (hl : scl = 0) :
    handleState d scl sda t = ({ d with scl := scl, sda := sda }, HSOut.empty) := by
  unfold handleState
  rw [if_neg hn, if_neg hf, if_pos hl]

/-- Witness for C7: data falls while the clock is already low, mid-address. -/
theorem c7_clock_low_mask_witness :
    handleState ⟨Conditions.READ_ADDR, 0, 1, 2, 64⟩ 0 0 9 =
      (⟨Conditions.READ_ADDR, 0, 0, 2, 64⟩, HSOut.empty) :=
  c7_clock_low_mask ⟨Conditions.READ_ADDR, 0, 1, 2, 64⟩ 0 0 9
    (by decide) (by decide) rfl

/-- C3: a start-condition sample (previous levels `1,1`, new levels `1,0`)
emits exactly one event — plain `START` when the current state is `IDLE` and
`STARTodd` otherwise — and moves to `READ_ADDR` with the stored levels set to
`1,0` and `pos` and `byteBuffer` both reset to `0`, from every decoder state. -/
theorem c3_start (d : Decoder) (t : Int) (hc : d.scl = 1) (hd : d.sda = 1) :
    handleState d 1 0 t =
      (⟨Conditions.READ_ADDR, 1, 0, 0, 0⟩,
       ⟨[(t, if d.state = Conditions.IDLE then I2CEvent.START else I2CEvent.STARTodd)],
        [], []⟩) := by
  unfold handleState
  rw [if_neg (by simp [hd]), if_neg (by simp), if_neg (by simp),
      if_pos ⟨hc, hd, rfl, rfl⟩]

/-- Witness for C3: a start from `IDLE` gives plain `START`, and a restart from
mid-transaction `READ_DATA` gives `STARTodd`. -/
theorem c3_start_witness :
    handleState ⟨Conditions.IDLE, 1, 1, 0, 0⟩ 1 0 4 =
      (⟨Conditions.READ_ADDR, 1, 0, 0, 0⟩, ⟨[(4, I2CEvent.START)], [], []⟩)
    ∧ handleState ⟨Conditions.READ_DATA, 1, 1, 5, 16⟩ 1 0 4 =
      (⟨Conditions.READ_ADDR, 1, 0, 0, 0⟩, ⟨[(4, I2CEvent.STARTodd)], [], []⟩) := by
  have h1 := c3_start ⟨Conditions.IDLE, 1, 1, 0, 0⟩ 4 rfl rfl
  have h2 := c3_start ⟨Conditions.READ_DATA, 1, 1, 5, 16⟩ 4 rfl rfl
  exact ⟨by simpa using h1, by simpa using h2⟩

/-- C8: a stop-condition sample (previous levels `1,0`, new levels `1,1`) emits
exactly one `STOP` event and unconditionally sets the state to `IDLE`, from
every decoder state — including `IDLE` itself, so a spurious STOP with no prior
START is accepted; `pos` and `byteBuffer` are left as they were and the stored
levels become `1,1`. -/
theorem c8_stop (d : Decoder) (t : Int) (hc : d.scl = 1) (hd : d.sda = 0) :
    handleState d 1 1 t =
      ({ d with state := Conditions.IDLE, scl := 1, sda := 1 },
       ⟨[(t, I2CEvent.STOP)], [], []⟩) := by
  unfold handleState
  rw [if_neg (by simp [hd]), if_neg (by simp), if_neg (by simp),
      if_neg (by simp [hd]), if_pos ⟨hc, hd, rfl, rfl⟩]

/-- Witness for C8: a spurious STOP in `IDLE` is accepted and re-affirms
`IDLE`. -/
theorem c8_stop_witness :
    handleState ⟨Conditions.IDLE, 1, 0, 0, 0⟩ 1 1 6 =
      (⟨Conditions.IDLE, 1, 1, 0, 0⟩, ⟨[(6, I2CEvent.STOP)], [], []⟩) := by
  have h := c8_stop ⟨Conditions.IDLE, 1, 0, 0, 0⟩ 6 rfl rfl
  simpa using h

/-- A sample with clock level `0` never emits anything and only stores the new
levels, from every decoder state: it lands in the no-change, clock-falling, or
clock-low branch, and all three leave `state`, `pos` and `byteBuffer` alone. -/
theorem handleState_clock_low (d : Decoder) (x : Nat) (t : Int) :
    handleState d 0 x t = ({ d with scl := 0, sda := x }, HSOut.empty) := by
  unfold handleState
  by_cases h1 : d.scl = 0 ∧ d.sda = x
  · rw [if_pos h1]
    obtain ⟨h1a, h1b⟩ := h1
    cases d
    simp_all
  · rw [if_neg h1]
    by_cases h2 : d.scl = 1
    · rw [if_pos ⟨h2, rfl⟩]
    · rw [if_neg (by simp [h2]), if_pos rfl]

/-- C2: MSB-first bit order.  Delivering any 7-bit pattern
`b6 b5 b4 b3 b2 b1 b0` as seven successive bit-sample edges to a decoder in
`READ_ADDR` with `pos = 0` and `byteBuffer = 0` (whatever the stored levels
are) emits on the data channel exactly the byte
`b6*64 + b5*32 + b4*16 + b3*8 + b2*4 + b1*2 + b0`, which lies in `0..127`,
together with exactly the `ADDRESS` event; analogously, delivering any 8-bit
pattern `a7 ... a0` in `READ_DATA` emits exactly the byte with the first
received bit at weight `2^7`, together with exactly the `DATA` event. -/
theorem c2_bit_order :
    (∀ (s v : Nat) (b6 b5 b4 b3 b2 b1 b0 : Bool),
      (feedBits ⟨Conditions.READ_ADDR, s, v, 0, 0⟩ [b6, b5, b4, b3, b2, b1, b0]).2.dataBytes.map
          Prod.snd =
        [bitLevel b6 * 64 + bitLevel b5 * 32 + bitLevel b4 * 16 + bitLevel b3 * 8 +
          bitLevel b2 * 4 + bitLevel b1 * 2 + bitLevel b0 * 1]
      ∧ (feedBits ⟨Conditions.READ_ADDR, s, v, 0, 0⟩ [b6, b5, b4, b3, b2, b1, b0]).2.events.map
          Prod.snd = [I2CEvent.ADDRESS])
    ∧ (∀ (s v : Nat) (a7 a6 a5 a4 a3 a2 a1 a0 : Bool),
      (feedBits ⟨Conditions.READ_DATA, s, v, 0, 0⟩ [a7, a6, a5, a4, a3, a2, a1, a0]).2.dataBytes.map
          Prod.snd =
        [bitLevel a7 * 128 + bitLevel a6 * 64 + bitLevel a5 * 32 + bitLevel a4 * 16 +
          bitLevel a3 * 8 + bitLevel a2 * 4 + bitLevel a1 * 2 + bitLevel a0 * 1]
      ∧ (feedBits ⟨Conditions.READ_DATA, s, v, 0, 0⟩ [a7, a6, a5, a4, a3, a2, a1, a0]).2.events.map
          Prod.snd = [I2CEvent.DATA]) := by
  constructor
  · intro s v b6 b5 b4 b3 b2 b1 b0
    have h : feedBits ⟨Conditions.READ_ADDR, s, v, 0, 0⟩ [b6, b5, b4, b3, b2, b1, b0] =
        ((run ⟨Conditions.READ_ADDR, 0, bitLevel b6, 0, 0⟩
            ((1, bitLevel b6, 0) :: bitSamples [b5, b4, b3, b2, b1, b0])).1,
         HSOut.app HSOut.empty
           (run ⟨Conditions.READ_ADDR, 0, bitLevel b6, 0, 0⟩
             ((1, bitLevel b6, 0) :: bitSamples [b5, b4, b3, b2, b1, b0])).2) := by
      rw [feedBits, show bitSamples [b6, b5, b4, b3, b2, b1, b0] =
            (0, bitLevel b6, 0) :: (1, bitLevel b6, 0) :: bitSamples [b5, b4, b3, b2, b1, b0]
          from rfl,
          run_cons, handleState_clock_low]
    rw [h]
    cases b6 <;> cases b5 <;> cases b4 <;> cases b3 <;> cases b2 <;> cases b1 <;> cases b0 <;>
      decide
  · intro s v a7 a6 a5 a4 a3 a2 a1 a0
    have h : feedBits ⟨Conditions.READ_DATA, s, v, 0, 0⟩ [a7, a6, a5, a4, a3, a2, a1, a0] =
        ((run ⟨Conditions.READ_DATA, 0, bitLevel a7, 0, 0⟩
            ((1, bitLevel a7, 0) :: bitSamples [a6, a5, a4, a3, a2, a1, a0])).1,
         HSOut.app HSOut.empty
           (run ⟨Conditions.READ_DATA, 0, bitLevel a7, 0, 0⟩
             ((1, bitLevel a7, 0) :: bitSamples [a6, a5, a4, a3, a2, a1, a0])).2) := by
      rw [feedBits, show bitSamples [a7, a6, a5, a4, a3, a2, a1, a0] =
            (0, bitLevel a7, 0) :: (1, bitLevel a7, 0) :: bitSamples [a6, a5, a4, a3, a2, a1, a0]
          from rfl,
          run_cons, handleState_clock_low]
    rw [h]
    cases a7 <;> cases a6 <;> cases a5 <;> cases a4 <;> cases a3 <;> cases a2 <;> cases a1 <;>
      cases a0 <;> decide

/-- One `handleState` call preserves the invariant. -/
theorem decInv_step (d : Decoder) (scl sda : Nat) (t : Int) (h : DecInv d) :
    DecInv (handleState d scl sda t).1 := by
  obtain ⟨hA, hD, hRW, hACK, hI⟩ := h
  unfold handleState
  by_cases h1 : d.scl = scl ∧ d.sda = sda
  · rw [if_pos h1]
    exact ⟨hA, hD, hRW, hACK, hI⟩
  rw [if_neg h1]
  by_cases h2 : d.scl = 1 ∧ scl = 0
  · rw [if_pos h2]
    exact ⟨hA, hD, hRW, hACK, hI⟩
  rw [if_neg h2]
  by_cases h3 : scl = 0
  · rw [if_pos h3]
    exact ⟨hA, hD, hRW, hACK, hI⟩
  rw [if_neg h3]
  by_cases h4 : d.scl = 1 ∧ d.sda = 1 ∧ scl = 1 ∧ sda = 0
  · rw [if_pos h4]
    simp [DecInv]
  rw [if_neg h4]
  by_cases h5 : d.scl = 1 ∧ d.sda = 0 ∧ scl = 1 ∧ sda = 1
  · rw [if_pos h5]
    simp [DecInv]
  rw [if_neg h5]
  by_cases h6 : d.state = Conditions.READ_ADDR ∧ scl = 1
  · rw [if_pos h6]
    have hp := hA h6.1
    by_cases h7 : (d.pos + 1) % 256 = 7
    · rw [if_pos h7]
      simp [DecInv]
    · rw [if_neg h7]
      simp [DecInv, h6.1]
      omega
  rw [if_neg h6]
  by_cases h8 : d.state = Conditions.READ_RW ∧ scl = 1
  · rw [if_pos h8]
    obtain ⟨hp0, hb0⟩ := hRW h8.1
    simp [DecInv, hp0, hb0]
  rw [if_neg h8]
  by_cases h9 : d.state = Conditions.READ_ACK ∧ scl = 1
  · rw [if_pos h9]
    simp [DecInv]
  rw [if_neg h9]
  by_cases h10 : d.state = Conditions.READ_DATA ∧ scl = 1
  · rw [if_pos h10]
    have hp := hD h10.1
    by_cases h11 : (d.pos + 1) % 256 = 8
    · rw [if_pos h11]
      simp [DecInv]
    · rw [if_neg h11]
      simp [DecInv, h10.1]
      omega
  rw [if_neg h10]
  exact ⟨hA, hD, hRW, hACK, hI⟩

/-- Every run from an invariant-satisfying decoder ends in an
invariant-satisfying decoder. -/
theorem decInv_run (ss : List (Nat × Nat × Int)) (d : Decoder) (h : DecInv d) :
    DecInv (run d ss).1 := by
  induction ss generalizing d with
  | nil => exact h
  | cons s ss ih =>
    obtain ⟨scl, sda, t⟩ := s
    rw [run_cons]
    exact ih _ (decInv_step d scl sda t h)

/-- Under the invariant, the bit position is at most `8` outside `IDLE`. -/
theorem decInv_pos_le (d : Decoder) (h : DecInv d) (hs : d.state ≠ Conditions.IDLE) :
    d.pos ≤ 8 := by
  obtain ⟨hA, hD, hRW, hACK, hI⟩ := h
  cases hst : d.state <;> simp_all <;> omega

/-- A start-condition sample takes the decoder to the fully reset
`READ_ADDR` record, from every state. -/
theorem entry_start (d : Decoder) (scl sda : Nat) (t : Int)
    (hs : isStartSample d scl sda) :
    (handleState d scl sda t).1 = ⟨Conditions.READ_ADDR, scl, sda, 0, 0⟩ := by
  obtain ⟨ha, hb, hc, he⟩ := hs
  unfold handleState
  rw [if_neg (by simp [hb, he]), if_neg (by simp [hc]), if_neg (by simp [hc]),
      if_pos ⟨ha, hb, hc, he⟩]

/-- Whenever a call moves `READ_ACK` to `READ_DATA`, the result carries
`pos = byteBuffer = 0` (the `READ_ACK` branch resets both). -/
theorem entry_ack_to_data (d : Decoder) (scl sda : Nat) (t : Int)
    (ha : d.state = Conditions.READ_ACK)
    (hb : (handleState d scl sda t).1.state = Conditions.READ_DATA) :
    (handleState d scl sda t).1.pos = 0 ∧ (handleState d scl sda t).1.byteBuffer = 0 := by
  revert hb
  unfold handleState
  by_cases h1 : d.scl = scl ∧ d.sda = sda
  · rw [if_pos h1]
    intro hb
    simp [ha] at hb
  rw [if_neg h1]
  by_cases h2 : d.scl = 1 ∧ scl = 0
  · rw [if_pos h2]
    intro hb
    simp [ha] at hb
  rw [if_neg h2]
  by_cases h3 : scl = 0
  · rw [if_pos h3]
    intro hb
    simp [ha] at hb
  rw [if_neg h3]
  by_cases h4 : d.scl = 1 ∧ d.sda = 1 ∧ scl = 1 ∧ sda = 0
  · rw [if_pos h4]
    intro hb
    simp at hb
  rw [if_neg h4]
  by_cases h5 : d.scl = 1 ∧ d.sda = 0 ∧ scl = 1 ∧ sda = 1
  · rw [if_pos h5]
    intro hb
    simp at hb
  rw [if_neg h5, if_neg (by simp [ha])]
  by_cases hscl : scl = 1
  · rw [if_neg (by simp [ha]), if_pos ⟨ha, hscl⟩]
    intro _
    exact ⟨rfl, rfl⟩
  · rw [if_neg (by simp [ha]), if_neg (fun hx => hscl hx.2),
        if_neg (by simp [ha])]
    intro hb
    simp [ha] at hb

/-- Whenever a call moves `READ_RW` to `READ_ACK`, the result carries
`pos = byteBuffer = 0`: the source resets nothing in the `READ_RW` branch, but
under the invariant `READ_RW` already has both fields `0`. -/
theorem entry_rw_to_ack (d : Decoder) (scl sda : Nat) (t : Int) (h : DecInv d)
    (ha : d.state = Conditions.READ_RW)
    (hb : (handleState d scl sda t).1.state = Conditions.READ_ACK) :
    (handleState d scl sda t).1.pos = 0 ∧ (handleState d scl sda t).1.byteBuffer = 0 := by
  obtain ⟨hA, hD, hRW, hACK, hI⟩ := h
  obtain ⟨hp0, hb0⟩ := hRW ha
  revert hb
  unfold handleState
  by_cases h1 : d.scl = scl ∧ d.sda = sda
  · rw [if_pos h1]
    intro hb
    simp [ha] at hb
  rw [if_neg h1]
  by_cases h2 : d.scl = 1 ∧ scl = 0
  · rw [if_pos h2]
    intro hb
    simp [ha] at hb
  rw [if_neg h2]
  by_cases h3 : scl = 0
  · rw [if_pos h3]
    intro hb
    simp [ha] at hb
  rw [if_neg h3]
  by_cases h4 : d.scl = 1 ∧ d.sda = 1 ∧ scl = 1 ∧ sda = 0
  · rw [if_pos h4]
    intro hb
    simp at hb
  rw [if_neg h4]
  by_cases h5 : d.scl = 1 ∧ d.sda = 0 ∧ scl = 1 ∧ sda = 1
  · rw [if_pos h5]
    intro hb
    simp at hb
  rw [if_neg h5, if_neg (by simp [ha])]
  by_cases hscl : scl = 1
  · rw [if_pos ⟨ha, hscl⟩]
    intro _
    exact ⟨hp0, hb0⟩
  · rw [if_neg (fun hx => hscl hx.2), if_neg (fun hx => hscl hx.2),
        if_neg (fun hx => hscl hx.2)]
    intro hb
    simp [ha] at hb

/-- Combination of the three state-entry boundary lemmas. -/
theorem decInv_entry (d : Decoder) (scl sda : Nat) (t : Int) (h : DecInv d) :
    (isStartSample d scl sda →
      (handleState d scl sda t).1.state = Conditions.READ_ADDR
      ∧ (handleState d scl sda t).1.pos = 0
      ∧ (handleState d scl sda t).1.byteBuffer = 0)
    ∧ (d.state = Conditions.READ_ACK
        ∧ (handleState d scl sda t).1.state = Conditions.READ_DATA →
      (handleState d scl sda t).1.pos = 0 ∧ (handleState d scl sda t).1.byteBuffer = 0)
    ∧ (d.state = Conditions.READ_RW
        ∧ (handleState d scl sda t).1.state = Conditions.READ_ACK →
      (handleState d scl sda t).1.pos = 0 ∧ (handleState d scl sda t).1.byteBuffer = 0) := by
  refine ⟨fun hs => ?_, fun hx => entry_ack_to_data d scl sda t hx.1 hx.2,
    fun hx => entry_rw_to_ack d scl sda t h hx.1 hx.2⟩
  rw [entry_start d scl sda t hs]
  exact ⟨rfl, rfl, rfl⟩

/-- C4 counterexample: the claim as stated is false at creation.  `newDecoder`
never initializes `pos` (the C `malloc`s the record and assigns only `state`,
`scl`, `sda`), so the decoder reached by processing no samples at all can carry
`pos = 9 > 8`. -/
theorem c4_uninit_cex :
    (run (newDecoder 9 0) []).1.pos = 9 ∧ ¬(run (newDecoder 9 0) []).1.pos ≤ 8 := by
  decide

/-- C4 (amended): away from the indeterminate allocator contents that `IDLE`
may still carry, the invariant holds in every reachable state: the freshly
created decoder satisfies `DecInv`; every run from creation preserves `DecInv`; in
every reachable state outside `IDLE` the bit position is at most `8`; and
`pos`/`byteBuffer` are both `0` immediately after every state-entry boundary
(entering `READ_ADDR` on any start condition, entering `READ_DATA` from
`READ_ACK`, entering `READ_ACK` from `READ_RW`). -/
theorem c4_amended :
    (∀ p b : Nat, DecInv (newDecoder p b))
    ∧ (∀ (p b : Nat) (ss : List (Nat × Nat × Int)), DecInv (run (newDecoder p b) ss).1)
    ∧ (∀ (p b : Nat) (ss : List (Nat × Nat × Int)),
        (run (newDecoder p b) ss).1.state ≠ Conditions.IDLE →
        (run (newDecoder p b) ss).1.pos ≤ 8)
    ∧ (∀ (d : Decoder) (scl sda : Nat) (t : Int), DecInv d →
        (isStartSample d scl sda →
          (handleState d scl sda t).1.state = Conditions.READ_ADDR
          ∧ (handleState d scl sda t).1.pos = 0
          ∧ (handleState d scl sda t).1.byteBuffer = 0)
        ∧ (d.state = Conditions.READ_ACK
            ∧ (handleState d scl sda t).1.state = Conditions.READ_DATA →
          (handleState d scl sda t).1.pos = 0
          ∧ (handleState d scl sda t).1.byteBuffer = 0)
        ∧ (d.state = Conditions.READ_RW
            ∧ (handleState d scl sda t).1.state = Conditions.READ_ACK →
          (handleState d scl sda t).1.pos = 0
          ∧ (handleState d scl sda t).1.byteBuffer = 0)) := by
  have hnew : ∀ p b : Nat, DecInv (newDecoder p b) := by
    intro p b
    unfold DecInv newDecoder
    simp
  refine ⟨hnew, fun p b ss => decInv_run ss _ (hnew p b), fun p b ss hs => ?_, decInv_entry⟩
  exact decInv_pos_le _ (decInv_run ss _ (hnew p b)) hs

/-- Witness for C4 (amended), discharging its hypotheses at concrete inputs:
after the start sample from a garbage-initialized decoder the position is
within bound, and a `READ_RW` to `READ_ACK` transition lands with
`pos = byteBuffer = 0`. -/
theorem c4_amended_witness :
    (run (newDecoder 9 0) [(1, 0, 0)]).1.pos ≤ 8
    ∧ (handleState ⟨Conditions.READ_RW, 0, 1, 0, 0⟩ 1 0 0).1.pos = 0
    ∧ (handleState ⟨Conditions.READ_RW, 0, 1, 0, 0⟩ 1 0 0).1.byteBuffer = 0 :=
  ⟨c4_amended.2.2.1 9 0 [(1, 0, 0)] (by decide),
   (c4_amended.2.2.2 ⟨Conditions.READ_RW, 0, 1, 0, 0⟩ 1 0 0 (by decide)).2.2
     ⟨rfl, by decide⟩⟩

/-- C5 evaluation at the failing input: a bit-sample edge in `IDLE` (previous
levels `0,0`, new levels `1,0`) produces exactly one diagnostic and leaves
`state`, `pos` and `byteBuffer` unchanged — but the diagnostic's last two
fields, which the format string labels as the new `scl`/`sda`, carry the
previous levels `0,0` again (the source passes `d->scl, d->sda` twice to
`io.printf`), not the new levels `1,0`. -/
theorem c5_diag_eval :
    handleState ⟨Conditions.IDLE, 0, 0, 3, 7⟩ 1 0 0 =
      (⟨Conditions.IDLE, 1, 0, 3, 7⟩,
       ⟨[], [], [⟨Conditions.IDLE, 0, 0, 0, 0⟩]⟩) := by
  decide

/-- In `IDLE`, a sample that is not a start condition keeps the decoder in
`IDLE`, emits no byte, and emits at most a single `STOP` event. -/
theorem idle_no_start_step (d : Decoder) (scl sda : Nat) (t : Int)
    (hs : d.state = Conditions.IDLE) (hns : ¬ isStartSample d scl sda) :
    (handleState d scl sda t).1.state = Conditions.IDLE
    ∧ (handleState d scl sda t).2.dataBytes = []
    ∧ ((handleState d scl sda t).2.events = []
       ∨ (handleState d scl sda t).2.events = [(t, I2CEvent.STOP)]) := by
  unfold handleState
  by_cases h1 : d.scl = scl ∧ d.sda = sda
  · rw [if_pos h1]
    exact ⟨hs, rfl, Or.inl rfl⟩
  rw [if_neg h1]
  by_cases h2 : d.scl = 1 ∧ scl = 0
  · rw [if_pos h2]
    exact ⟨hs, rfl, Or.inl rfl⟩
  rw [if_neg h2]
  by_cases h3 : scl = 0
  · rw [if_pos h3]
    exact ⟨hs, rfl, Or.inl rfl⟩
  rw [if_neg h3,
      if_neg (show ¬(d.scl = 1 ∧ d.sda = 1 ∧ scl = 1 ∧ sda = 0) from fun hx => hns hx)]
  by_cases h5 : d.scl = 1 ∧ d.sda = 0 ∧ scl = 1 ∧ sda = 1
  · rw [if_pos h5]
    exact ⟨rfl, rfl, Or.inr rfl⟩
  rw [if_neg h5, if_neg (by simp [hs]), if_neg (by simp [hs]),
      if_neg (by simp [hs]), if_neg (by simp [hs])]
  exact ⟨hs, rfl, Or.inl rfl⟩

/-- A run from `IDLE` containing no start condition stays in `IDLE`, emits no
byte, and emits only `STOP` events. -/
theorem idle_no_start_run (ss : List (Nat × Nat × Int)) (d : Decoder)
    (hs : d.state = Conditions.IDLE) (hns : noStartRun d ss) :
    (run d ss).1.state = Conditions.IDLE
    ∧ (run d ss).2.dataBytes = []
    ∧ ∀ e ∈ (run d ss).2.events, e.2 = I2CEvent.STOP := by
  induction ss generalizing d with
  | nil =>
    refine ⟨hs, rfl, ?_⟩
    intro e he
    cases he
  | cons s ss ih =>
    obtain ⟨scl, sda, t⟩ := s
    obtain ⟨hn1, hn2⟩ :=
      (hns : ¬ isStartSample d scl sda ∧ noStartRun (handleState d scl sda t).1 ss)
    obtain ⟨ha, hb, hc⟩ := idle_no_start_step d scl sda t hs hn1
    obtain ⟨ra, rb, rc⟩ := ih _ ha hn2
    rw [run_cons]
    refine ⟨ra, by simp [HSOut.app, hb, rb], ?_⟩
    intro e he
    have he2 : e ∈ (handleState d scl sda t).2.events
        ∨ e ∈ (run (handleState d scl sda t).1 ss).2.events := by
      simpa [HSOut.app] using he
    rcases he2 with h | h
    · rcases hc with hc | hc
      · rw [hc] at h
        cases h
      · rw [hc] at h
        have : e = (t, I2CEvent.STOP) := by simpa using h
        rw [this]
    · exact rc e h

/-- C9: a run from creation whose samples contain no start condition never
emits a byte on the data channel and never emits any event other than `STOP`,
for every indeterminate initial content of the uninitialized fields. -/
theorem c9_no_start_no_bytes (p b : Nat) (ss : List (Nat × Nat × Int))
    (h : noStartRun (newDecoder p b) ss) :
    (run (newDecoder p b) ss).2.dataBytes = []
    ∧ ∀ e ∈ (run (newDecoder p b) ss).2.events, e.2 = I2CEvent.STOP :=
  (idle_no_start_run ss _ rfl h).2

/-- Witness for C9 at the concrete start-free sample list `c9Samples`. -/
theorem c9_no_start_no_bytes_witness :
    noStartRun (newDecoder 0 0) c9Samples
    ∧ ((run (newDecoder 0 0) c9Samples).2.dataBytes = []
       ∧ ∀ e ∈ (run (newDecoder 0 0) c9Samples).2.events, e.2 = I2CEvent.STOP) :=
  ⟨by decide, c9_no_start_no_bytes 0 0 c9Samples (by decide)⟩

/-- C10: in any single `handleState` call, either nothing is written to the
data channel, or exactly one byte is written, together with exactly one event
carrying the same timestamp — and the pairing is directional: the byte comes
from the call completing the 7-bit address field (current state `READ_ADDR`,
7th bit landing, the byte being the accumulated address) and is paired with the
`ADDRESS` event, or from the call completing the 8-bit data field (current
state `READ_DATA`, 8th bit landing, the byte being the accumulated data byte)
and is paired with the `DATA` event; no other transition writes to the data
channel. -/
theorem c10_data_event_pairing (d : Decoder) (scl sda : Nat) (t : Int) :
    (handleState d scl sda t).2.dataBytes = []
    ∨ ∃ v : Nat,
        (handleState d scl sda t).2.dataBytes = [(t, v)]
        ∧ ((d.state = Conditions.READ_ADDR ∧ (d.pos + 1) % 256 = 7 ∧ scl = 1
              ∧ v = (d.byteBuffer ||| (sda <<< (6 - d.pos))) % 256
              ∧ (handleState d scl sda t).2.events = [(t, I2CEvent.ADDRESS)])
           ∨ (d.state = Conditions.READ_DATA ∧ (d.pos + 1) % 256 = 8 ∧ scl = 1
              ∧ v = (d.byteBuffer ||| (sda <<< (7 - d.pos))) % 256
              ∧ (handleState d scl sda t).2.events = [(t, I2CEvent.DATA)])) := by
  unfold handleState
  by_cases h1 : d.scl = scl ∧ d.sda = sda
  · rw [if_pos h1]
    exact Or.inl rfl
  rw [if_neg h1]
  by_cases h2 : d.scl = 1 ∧ scl = 0
  · rw [if_pos h2]
    exact Or.inl rfl
  rw [if_neg h2]
  by_cases h3 : scl = 0
  · rw [if_pos h3]
    exact Or.inl rfl
  rw [if_neg h3]
  by_cases h4 : d.scl = 1 ∧ d.sda = 1 ∧ scl = 1 ∧ sda = 0
  · rw [if_pos h4]
    exact Or.inl rfl
  rw [if_neg h4]
  by_cases h5 : d.scl = 1 ∧ d.sda = 0 ∧ scl = 1 ∧ sda = 1
  · rw [if_pos h5]
    exact Or.inl rfl
  rw [if_neg h5]
  by_cases h6 : d.state = Conditions.READ_ADDR ∧ scl = 1
  · rw [if_pos h6]
    by_cases h7 : (d.pos + 1) % 256 = 7
    · rw [if_pos h7]
      exact Or.inr ⟨_, rfl, Or.inl ⟨h6.1, h7, h6.2, rfl, rfl⟩⟩
    · rw [if_neg h7]
      exact Or.inl rfl
  rw [if_neg h6]
  by_cases h8 : d.state = Conditions.READ_RW ∧ scl = 1
  · rw [if_pos h8]
    exact Or.inl rfl
  rw [if_neg h8]
  by_cases h9 : d.state = Conditions.READ_ACK ∧ scl = 1
  · rw [if_pos h9]
    exact Or.inl rfl
  rw [if_neg h9]
  by_cases h10 : d.state = Conditions.READ_DATA ∧ scl = 1
  · rw [if_pos h10]
    by_cases h11 : (d.pos + 1) % 256 = 8
    · rw [if_pos h11]
      exact Or.inr ⟨_, rfl, Or.inr ⟨h10.1, h11, h10.2, rfl, rfl⟩⟩
    · rw [if_neg h11]
      exact Or.inl rfl
  rw [if_neg h10]
  exact Or.inl rfl
